import Mathlib

set_option maxHeartbeats 1000000

/-- Dynamic (Python) values that appear in the tag-filtering comparisons of
`get_hosts_group`: `None`, a `str`, or a `list` of strings (the
`include_tags` and `exclude_tags` options are declared with
`type: list, elements: string`).  Python `==` on these values is structural
equality within one shape and `False` across shapes, which is exactly the
derived decidable equality. -/
inductive PyVal where
  | vnone : PyVal
  | vstr : String → PyVal
  | vlistStr : List String → PyVal
deriving DecidableEq

/-- Python truthiness for the values of `PyVal`: `None`, the empty string and
the empty list are falsy. -/
def PyVal.truthy : PyVal → Bool
  | .vnone => false
  | .vstr s => !s.isEmpty
  | .vlistStr l => !l.isEmpty

/-- Value of a tag option as returned by `get_option`: unset (`None`) or a
list of strings, injected into `PyVal`. -/
def tagsVal : Option (List String) → PyVal
  | none => .vnone
  | some ts => .vlistStr ts

/-- Value of the Python variable `group` of `get_hosts_group` (a `str` or
`None`) as a `PyVal`. -/
def groupVal : Option String → PyVal
  | none => .vnone
  | some g => .vstr g

/-- Python `str.split` with the one-character separator (here always `'-'`),
on the character list of the string: `"".split("-") == [""]`, and in general
the result has one (possibly empty) piece per gap between separators. -/
def pysplit (sep : Char) : List Char → List (List Char)
  | [] => [[]]
  | c :: rest =>
    match pysplit sep rest with
    | [] => [[]]
    | w :: ws => if c = sep then [] :: w :: ws else (c :: w) :: ws

/-- The resolved plugin options consumed by the modelled code paths:
`include_tags` and `exclude_tags` (unset or a list of strings) and `strict`.
The passthrough option values `compose`, `groups` and `keyed_groups` are
handed unmodified to the external constructed-inventory services and carry no
behaviour of their own here; `latitude_project` and `latitude_api_token` only
parameterize the HTTP request, which is abstracted by the response function
given to `get_servers`. -/
structure Config where
  include_tags : Option (List String)
  exclude_tags : Option (List String)
  strict : Bool
deriving DecidableEq

/-- Attributes of one raw server record.  Only `hostname` and `primary_ipv4`
are ever read; at runtime both reads are plain dict lookups that raise
`KeyError` when the key is absent, so both are modelled as optional.  The
remaining attributes (`status`, `region`, `plan`, ...) are never consumed by
the code and are omitted. -/
structure ServerAttributes where
  hostname : Option String
  primary_ipv4 : Option String
deriving DecidableEq

/-- One raw server record (`{id, type, attributes}`). -/
structure Server where
  id : String
  type : String
  attributes : ServerAttributes
deriving DecidableEq

/-- Fatal errors the modelled code can raise: a `KeyError` on a missing
record attribute, the `HTTPError` of `raise_for_status`, and a marker for
exhausting the fuel bound of the pagination loop (in Python the loop would
simply never terminate). -/
inductive PErr where
  | keyError : String → PErr
  | httpError : PErr
  | nonTermination : PErr
deriving DecidableEq

/-- Observable inventory-mutating calls issued while parsing, in order:
`inventory.add_group`, `inventory.add_host` (host name and the group it was
registered under), `inventory.set_variable`, and the three
constructed-inventory delegations, each with the strictness flag it was
passed. -/
inductive Event where
  | addGroup : String → Event
  | addHost : String → Option String → Event
  | setVariable : String → String → PyVal → Event
  | setCompositeVars : String → Bool → Event
  | addComposedGroups : String → Bool → Event
  | addKeyedGroups : String → Bool → Event
deriving DecidableEq

/-- The group candidate `hostname.split("-")[1]`: `none` when the index
raises `IndexError` (fewer than two pieces). -/
def host_group_candidate (hostname : String) : Option String :=
  ((pysplit '-' hostname.data).get? 1).map String.mk

/-- Embedding of `get_hosts_group`.  Inside `suppress(IndexError)` the code
computes `hostname.split("-")[1]` and registers it with
`inventory.add_group`; when the index raises, `group` stays `None` and no
group is registered.  Then the include/exclude filters compare the whole
option value against `group` with Python `!=` / `==`.  Returns the group (or
`none`) together with the list of `add_group` calls made. -/
def get_hosts_group (cfg : Config) (hostname : String) : Option String × List String :=
  let group := host_group_candidate hostname
  let added := match group with
    | some g => [g]
    | none => []
  let include_tags := tagsVal cfg.include_tags
  if include_tags.truthy && include_tags != groupVal group then
    (none, added)
  else
    let exclude_tags := tagsVal cfg.exclude_tags
    if exclude_tags.truthy && exclude_tags == groupVal group then
      (none, added)
    else
      (group, added)

/-- Embedding of `add_sever`: look up `hostname` (a `KeyError` when absent),
classify and register the host, set the three base host variables (the
`primary_ipv4` lookup raises `KeyError` when absent — after the host was
already added), then delegate to `_set_composite_vars` with `strict=True` and
to the composed- and keyed-group builders with the configured `strict`
option.  Returns the trace of inventory events together with the raised
error, if any. -/
def add_sever (cfg : Config) (server : Server) : List Event × Option PErr :=
  match server.attributes.hostname with
  | none => ([], some (.keyError "hostname"))
  | some hostname =>
    let gr := get_hosts_group cfg hostname
    let evs := gr.2.map Event.addGroup ++ [Event.addHost hostname gr.1]
    match server.attributes.primary_ipv4 with
    | none => (evs, some (.keyError "primary_ipv4"))
    | some ip =>
      (evs ++
        [Event.setVariable hostname "public_ip_address" (.vstr ip),
         Event.setVariable hostname "server_name" (.vstr hostname),
         Event.setVariable hostname "group" (groupVal gr.1),
         Event.setCompositeVars hostname true,
         Event.addComposedGroups hostname cfg.strict,
         Event.addKeyedGroups hostname cfg.strict], none)

/-- The `for server in servers: self.add_sever(...)` loop of `parse`: run
`add_sever` on each record in order; a raised error stops the loop, keeping
the events emitted so far. -/
def parseServers (cfg : Config) : List Server → List Event × Option PErr
  | [] => ([], none)
  | s :: rest =>
    let r := add_sever cfg s
    match r.2 with
    | some e => (r.1, some e)
    | none =>
      let r2 := parseServers cfg rest
      (r.1 ++ r2.1, r2.2)

/-- One HTTP response of the paginated endpoint, as the code observes it:
whether `raise_for_status` passes (a success status) and the `data` array of
the JSON body (`.get("data", [])`, so a missing key is the empty list). -/
structure Response where
  ok : Bool
  data : List Server
deriving DecidableEq

/-- The `while True` pagination loop of `get_servers`, with the page cursor
and the accumulator explicit and a fuel bound standing in for
non-termination.  The response function maps a page number to the API
response for that page.  Returns the result together with the number of GET
requests issued. -/
def get_servers_loop (api : Nat → Response) :
    Nat → Nat → List Server → Except PErr (List Server) × Nat
  | 0, _, _ => (.error .nonTermination, 0)
  | fuel + 1, page, all_servers =>
    let response := api page
    if !response.ok then
      (.error .httpError, 1)
    else if response.data.isEmpty then
      (.ok all_servers, 1)
    else
      let r := get_servers_loop api fuel (page + 1) (all_servers ++ response.data)
      (r.1, r.2 + 1)

/-- Embedding of `get_servers`: the page cursor starts at 1 and the
accumulator starts empty. -/
def get_servers (api : Nat → Response) (fuel : Nat) :
    Except PErr (List Server) × Nat :=
  get_servers_loop api fuel 1 []

/-- Embedding of `parse`: fetch all servers, then run `add_sever` on each in
order; a fetch error aborts before any record is processed. -/
def parse (cfg : Config) (api : Nat → Response) (fuel : Nat) :
    List Event × Option PErr :=
  match (get_servers api fuel).1 with
  | .error e => ([], some e)
  | .ok servers => parseServers cfg servers

/-- Scan of an event trace checking that every `add_host` carrying a group
label only uses a group already registered by an earlier `add_group` in the
trace (or already in `known`). -/
def groupsBefore (known : List String) : List Event → Bool
  | [] => true
  | Event.addGroup g :: rest => groupsBefore (g :: known) rest
  | Event.addHost _ (some g) :: rest => decide (g ∈ known) && groupsBefore known rest
  | _ :: rest => groupsBefore known rest

/-- Recognizer for `add_host` events. -/
def isAddHost : Event → Bool
  | Event.addHost _ _ => true
  | _ => false

/-- Number of `add_host` registrations in a trace. -/
def countAddHost (l : List Event) : Nat := l.countP isAddHost

example : pysplit '-' "web-prod-01".data = [['w','e','b'], ['p','r','o','d'], ['0','1']] := by decide

example : host_group_candidate "web-prod-01" = some "prod" := by decide

example : host_group_candidate "server1" = none := by decide

example : (get_hosts_group ⟨none, none, false⟩ "web-prod-01").1 = some "prod" := by decide

example : (get_hosts_group ⟨some ["prod"], none, false⟩ "web-prod-01").1 = none := by decide

example : (get_hosts_group ⟨none, some ["prod"], false⟩ "web-prod-01").1 = some "prod" := by decide

example :
    (add_sever ⟨none, none, false⟩ ⟨"1", "servers", ⟨some "srv-a", none⟩⟩).2 =
      some (.keyError "primary_ipv4") := by decide

/-- The second component of `get_hosts_group` is the `add_group` calls: one
for the candidate when it exists, none otherwise, independently of the tag
filters. -/
theorem get_hosts_group_snd (cfg : Config) (h : String) :
    (get_hosts_group cfg h).2 =
      match host_group_candidate h with
      | some g => [g]
      | none => [] := by
  simp only [get_hosts_group]
  split
  · rfl
  · split <;> rfl

/-- The group returned by `get_hosts_group` is either `none` or the raw
candidate. -/
theorem get_hosts_group_fst (cfg : Config) (h : String) :
    (get_hosts_group cfg h).1 = none ∨
      (get_hosts_group cfg h).1 = host_group_candidate h := by
  simp only [get_hosts_group]
  split
  · exact Or.inl rfl
  · split
    · exact Or.inl rfl
    · exact Or.inr rfl

/-- C1: for every non-empty `include_tags` list and every hostname (whatever
group candidate it yields, including the single-element case
`include_tags = ["prod"]` with candidate `"prod"`), `get_hosts_group` returns
`none`: the whole list value is compared with `!=` against the single group
string (or `None`), and a list never equals either. -/
theorem include_tags_always_exclude (cfg : Config) (hostname : String)
    (ts : List String) (hinc : cfg.include_tags = some ts) (hne : ts ≠ []) :
    (get_hosts_group cfg hostname).1 = none := by
  simp only [get_hosts_group, hinc]
  cases ts with
  | nil => exact absurd rfl hne
  | cons t ts' =>
    cases host_group_candidate hostname <;>
      simp [tagsVal, groupVal, PyVal.truthy, bne_iff_ne]

/-- Witness for C1 at `include_tags = ["prod"]`, hostname `web-prod-01`
(candidate `"prod"`). -/
theorem include_tags_always_exclude_witness :
    (get_hosts_group ⟨some ["prod"], none, false⟩ "web-prod-01").1 = none :=
  include_tags_always_exclude ⟨some ["prod"], none, false⟩ "web-prod-01"
    ["prod"] rfl (by decide)

/-- C5: with both tag filters unset, the classifier returns the second
`'-'`-component of the hostname unchanged whenever the split has at least two
components. -/
theorem no_filters_second_component (cfg : Config) (hostname : String)
    (c : List Char)
    (hinc : cfg.include_tags = none) (hexc : cfg.exclude_tags = none)
    (hc : (pysplit '-' hostname.data).get? 1 = some c) :
    2 ≤ (pysplit '-' hostname.data).length ∧
      (get_hosts_group cfg hostname).1 = some (String.mk c) := by
  constructor
  · by_contra hlt
    rw [List.get?_eq_none.mpr (by omega)] at hc
    exact Option.noConfusion hc
  · simp only [get_hosts_group, hinc, hexc, tagsVal, PyVal.truthy,
      Bool.false_and, if_neg Bool.false_ne_true]
    simp only [host_group_candidate]
    rw [hc]
    rfl

/-- Witness for C5 at hostname `web-prod-01`: the returned group is
`prod`. -/
theorem no_filters_second_component_witness :
    (get_hosts_group ⟨none, none, false⟩ "web-prod-01").1 = some "prod" :=
  (no_filters_second_component ⟨none, none, false⟩ "web-prod-01"
    ['p', 'r', 'o', 'd'] rfl rfl (by decide)).2

/-- C6: a hostname whose split has fewer than two components yields no group
candidate (the classifier returns `none`, raising nothing), and the host is
still registered in the inventory, ungrouped, by `add_sever`. -/
theorem short_hostname_still_added (cfg : Config) (s : Server) (h : String)
    (hh : s.attributes.hostname = some h)
    (hlen : (pysplit '-' h.data).length < 2) :
    (get_hosts_group cfg h).1 = none ∧
      Event.addHost h none ∈ (add_sever cfg s).1 := by
  have hle : (pysplit '-' h.data).length ≤ 1 := by omega
  have hget : (pysplit '-' h.data).get? 1 = none := List.get?_eq_none.mpr hle
  have hcand : host_group_candidate h = none := by
    simp only [host_group_candidate, hget]
    rfl
  have h1 : (get_hosts_group cfg h).1 = none := by
    rcases get_hosts_group_fst cfg h with h' | h'
    · exact h'
    · rw [h', hcand]
  have h2 : (get_hosts_group cfg h).2 = [] := by
    rw [get_hosts_group_snd cfg h, hcand]
  refine ⟨h1, ?_⟩
  simp only [add_sever, hh]
  cases s.attributes.primary_ipv4 <;> simp [h1, h2]

/-- Witness for C6 at hostname `server1`. -/
theorem short_hostname_still_added_witness :
    (get_hosts_group ⟨none, none, false⟩ "server1").1 = none ∧
      Event.addHost "server1" none ∈
        (add_sever ⟨none, none, false⟩
          ⟨"1", "servers", ⟨some "server1", some "10.0.0.1"⟩⟩).1 :=
  short_hostname_still_added ⟨none, none, false⟩
    ⟨"1", "servers", ⟨some "server1", some "10.0.0.1"⟩⟩ "server1" rfl (by decide)

/-- C10: a non-empty `exclude_tags` list never triggers the exclusion branch
(the whole list is compared with `==` against the single group string or
`None`, which is always false), so with `include_tags` unset the candidate is
returned unchanged. -/
theorem exclude_tags_never_excludes (cfg : Config) (hostname : String)
    (ts : List String) (hexc : cfg.exclude_tags = some ts) (_hne : ts ≠ [])
    (hinc : cfg.include_tags = none) :
    (get_hosts_group cfg hostname).1 = host_group_candidate hostname := by
  simp only [get_hosts_group, hinc, hexc, tagsVal, PyVal.truthy,
    Bool.false_and, if_neg Bool.false_ne_true]
  cases host_group_candidate hostname <;>
    simp [groupVal, beq_iff_eq]

/-- Witness for C10 at `exclude_tags = ["prod"]`, hostname `web-prod-01`:
the group `prod` is still returned. -/
theorem exclude_tags_never_excludes_witness :
    (get_hosts_group ⟨none, some ["prod"], false⟩ "web-prod-01").1 = some "prod" := by
  rw [exclude_tags_never_excludes ⟨none, some ["prod"], false⟩ "web-prod-01"
    ["prod"] rfl (by decide) rfl]
  decide

/-- A record that has a `hostname` attribute but no `primary_ipv4` attribute
makes `add_sever` raise: the claim that its absence is tolerated fails on
this concrete record. -/
theorem missing_ipv4_not_tolerated :
    ¬ (add_sever ⟨none, none, false⟩
        ⟨"42", "servers", ⟨some "srv-a", none⟩⟩).2 = none := by
  decide

/-- C3 (amended): for every record with a `hostname` attribute but no
`primary_ipv4` attribute, `add_sever` raises a fatal `KeyError` on
`primary_ipv4` — the absence is a data-shape error just like a missing
`hostname`, except that the host has already been registered when the error
is raised. -/
theorem missing_ipv4_fatal (cfg : Config) (s : Server) (h : String)
    (hh : s.attributes.hostname = some h)
    (hip : s.attributes.primary_ipv4 = none) :
    (add_sever cfg s).2 = some (.keyError "primary_ipv4") ∧
      Event.addHost h (get_hosts_group cfg h).1 ∈ (add_sever cfg s).1 := by
  simp only [add_sever, hh, hip]
  simp

/-- Witness for the amended C3 at a record with hostname `srv-a` and no
`primary_ipv4`. -/
theorem missing_ipv4_fatal_witness :
    (add_sever ⟨none, none, false⟩ ⟨"42", "servers", ⟨some "srv-a", none⟩⟩).2 =
        some (.keyError "primary_ipv4") ∧
      Event.addHost "srv-a"
          (get_hosts_group ⟨none, none, false⟩ "srv-a").1 ∈
        (add_sever ⟨none, none, false⟩ ⟨"42", "servers", ⟨some "srv-a", none⟩⟩).1 :=
  missing_ipv4_fatal ⟨none, none, false⟩ ⟨"42", "servers", ⟨some "srv-a", none⟩⟩
    "srv-a" rfl rfl

/-- C8: for every record the assembler processes to completion, the
composite-variable evaluator is called with the strict flag hardcoded to
`true`, while the composed-group and keyed-group builders are called with
the configured `strict` option; and no call of either kind is made with any
other flag value. -/
theorem composite_strict_hardcoded (cfg : Config) (s : Server) (h ip : String)
    (hh : s.attributes.hostname = some h)
    (hip : s.attributes.primary_ipv4 = some ip) :
    (Event.setCompositeVars h true ∈ (add_sever cfg s).1 ∧
      Event.addComposedGroups h cfg.strict ∈ (add_sever cfg s).1 ∧
      Event.addKeyedGroups h cfg.strict ∈ (add_sever cfg s).1) ∧
    (∀ h2 b, Event.setCompositeVars h2 b ∈ (add_sever cfg s).1 → b = true) ∧
    (∀ h2 b, Event.addComposedGroups h2 b ∈ (add_sever cfg s).1 → b = cfg.strict) ∧
    (∀ h2 b, Event.addKeyedGroups h2 b ∈ (add_sever cfg s).1 → b = cfg.strict) := by
  simp only [add_sever, hh, hip]
  refine ⟨by simp, ?_, ?_, ?_⟩ <;>
    · intro h2 b hb
      simp only [List.mem_append, List.mem_map, List.mem_cons,
        List.mem_singleton, List.not_mem_nil] at hb
      rcases hb with (⟨g, _, hg⟩ | hg) | hg <;> simp_all

/-- Witness for C8 at a record with hostname `web-prod-01`, with
`strict = false` configured. -/
theorem composite_strict_hardcoded_witness :
    (Event.setCompositeVars "web-prod-01" true ∈
        (add_sever ⟨none, none, false⟩
          ⟨"1", "servers", ⟨some "web-prod-01", some "10.0.0.1"⟩⟩).1 ∧
      Event.addComposedGroups "web-prod-01" false ∈
        (add_sever ⟨none, none, false⟩
          ⟨"1", "servers", ⟨some "web-prod-01", some "10.0.0.1"⟩⟩).1 ∧
      Event.addKeyedGroups "web-prod-01" false ∈
        (add_sever ⟨none, none, false⟩
          ⟨"1", "servers", ⟨some "web-prod-01", some "10.0.0.1"⟩⟩).1) :=
  (composite_strict_hardcoded ⟨none, none, false⟩
    ⟨"1", "servers", ⟨some "web-prod-01", some "10.0.0.1"⟩⟩
    "web-prod-01" "10.0.0.1" rfl rfl).1

/-- The `groupsBefore` scan is monotone in the set of already-known
groups. -/
theorem groupsBefore_mono (l : List Event) :
    ∀ known known2 : List String, (∀ g, g ∈ known → g ∈ known2) →
      groupsBefore known l = true → groupsBefore known2 l = true := by
  induction l with
  | nil => intro known known2 _ _; rfl
  | cons e rest ih =>
    intro known known2 hsub hl
    cases e with
    | addGroup g =>
      simp only [groupsBefore] at hl ⊢
      refine ih (g :: known) (g :: known2) ?_ hl
      intro x hx
      rcases List.mem_cons.mp hx with hx | hx
      · exact hx ▸ List.mem_cons_self g known2
      · exact List.mem_cons_of_mem g (hsub x hx)
    | addHost h og =>
      cases og with
      | none => simpa only [groupsBefore] using ih known known2 hsub (by simpa only [groupsBefore] using hl)
      | some g =>
        simp only [groupsBefore, Bool.and_eq_true, decide_eq_true_eq] at hl ⊢
        exact ⟨hsub g hl.1, ih known known2 hsub hl.2⟩
    | setVariable h n v => simpa only [groupsBefore] using ih known known2 hsub (by simpa only [groupsBefore] using hl)
    | setCompositeVars h b => simpa only [groupsBefore] using ih known known2 hsub (by simpa only [groupsBefore] using hl)
    | addComposedGroups h b => simpa only [groupsBefore] using ih known known2 hsub (by simpa only [groupsBefore] using hl)
    | addKeyedGroups h b => simpa only [groupsBefore] using ih known known2 hsub (by simpa only [groupsBefore] using hl)

/-- Concatenating two traces that each pass the `groupsBefore` scan gives a
trace that passes it: groups registered by the first trace only add to what
is known when the second is scanned. -/
theorem groupsBefore_append (l1 l2 : List Event) :
    ∀ known : List String, groupsBefore known l1 = true →
      groupsBefore known l2 = true → groupsBefore known (l1 ++ l2) = true := by
  induction l1 with
  | nil => intro known _ h2; simpa using h2
  | cons e rest ih =>
    intro known h1 h2
    cases e with
    | addGroup g =>
      simp only [List.cons_append, groupsBefore] at h1 ⊢
      exact ih (g :: known) h1
        (groupsBefore_mono l2 known (g :: known) (fun x hx => List.mem_cons_of_mem g hx) h2)
    | addHost h og =>
      cases og with
      | none =>
        simp only [List.cons_append, groupsBefore] at h1 ⊢
        exact ih known h1 h2
      | some g =>
        simp only [List.cons_append, groupsBefore, Bool.and_eq_true] at h1 ⊢
        exact ⟨h1.1, ih known h1.2 h2⟩
    | setVariable h n v =>
      simp only [List.cons_append, groupsBefore] at h1 ⊢
      exact ih known h1 h2
    | setCompositeVars h b =>
      simp only [List.cons_append, groupsBefore] at h1 ⊢
      exact ih known h1 h2
    | addComposedGroups h b =>
      simp only [List.cons_append, groupsBefore] at h1 ⊢
      exact ih known h1 h2
    | addKeyedGroups h b =>
      simp only [List.cons_append, groupsBefore] at h1 ⊢
      exact ih known h1 h2

/-- Every trace emitted by `add_sever` passes the `groupsBefore` scan: the
`add_group` call for the candidate precedes the `add_host` call that may
carry it. -/
theorem add_sever_groupsBefore (cfg : Config) (s : Server)
    (known : List String) :
    groupsBefore known (add_sever cfg s).1 = true := by
  simp only [add_sever]
  cases hh : s.attributes.hostname with
  | none => rfl
  | some h =>
    have hsnd := get_hosts_group_snd cfg h
    have hfst := get_hosts_group_fst cfg h
    cases hcand : host_group_candidate h with
    | none =>
      rw [hcand] at hsnd
      have h1 : (get_hosts_group cfg h).1 = none := by
        rcases hfst with h' | h'
        · exact h'
        · rw [h', hcand]
      cases s.attributes.primary_ipv4 <;> simp [hsnd, h1, groupsBefore]
    | some g =>
      rw [hcand] at hsnd
      have h1 : (get_hosts_group cfg h).1 = none ∨
          (get_hosts_group cfg h).1 = some g := by
        rcases hfst with h' | h'
        · exact Or.inl h'
        · exact Or.inr (h' ▸ hcand ▸ rfl)
      rcases h1 with h1 | h1 <;>
        cases s.attributes.primary_ipv4 <;>
          simp [hsnd, h1, groupsBefore]

/-- A successful `add_sever` registers exactly one host. -/
theorem add_sever_countAddHost (cfg : Config) (s : Server)
    (hs : (add_sever cfg s).2 = none) :
    countAddHost (add_sever cfg s).1 = 1 := by
  simp only [add_sever] at hs ⊢
  cases hh : s.attributes.hostname with
  | none => rw [hh] at hs; exact Option.noConfusion hs
  | some h =>
    rw [hh] at hs
    cases hip : s.attributes.primary_ipv4 with
    | none => rw [hip] at hs; exact Option.noConfusion hs
    | some ip =>
      have hsnd := get_hosts_group_snd cfg h
      cases hcand : host_group_candidate h <;>
        rw [hcand] at hsnd <;>
          simp [hsnd, countAddHost, isAddHost, List.countP_cons, List.countP_append]

/-- C9: over every parse of a fetched record list, the event trace passes the
`groupsBefore` scan (a host is only ever registered under a group that an
earlier `add_group` call registered), and when the parse succeeds, every
record caused exactly one `add_host` registration — also when classification
returned no group. -/
theorem parse_trace_invariants (cfg : Config) (servers : List Server) :
    groupsBefore [] (parseServers cfg servers).1 = true ∧
      ((parseServers cfg servers).2 = none →
        countAddHost (parseServers cfg servers).1 = servers.length) := by
  induction servers with
  | nil => exact ⟨rfl, fun _ => rfl⟩
  | cons s rest ih =>
    simp only [parseServers]
    cases hr : (add_sever cfg s).2 with
    | some e =>
      refine ⟨add_sever_groupsBefore cfg s [], fun hcontra => ?_⟩
      exact Option.noConfusion hcontra
    | none =>
      constructor
      · exact groupsBefore_append (add_sever cfg s).1 (parseServers cfg rest).1 []
          (add_sever_groupsBefore cfg s []) ih.1
      · intro hok
        have h2 := ih.2 hok
        have h1 : countAddHost (add_sever cfg s).1 = 1 := add_sever_countAddHost cfg s hr
        show countAddHost ((add_sever cfg s).1 ++ (parseServers cfg rest).1) =
          (s :: rest).length
        simp only [countAddHost] at h1 h2 ⊢
        rw [List.countP_append, h1, h2]
        simp [Nat.add_comm]

/-- Witness for C9 on a two-record fetch (one grouped host, one ungrouped
host). -/
theorem parse_trace_invariants_witness :
    groupsBefore []
        (parseServers ⟨none, none, false⟩
          [⟨"1", "servers", ⟨some "web-prod-01", some "10.0.0.1"⟩⟩,
           ⟨"2", "servers", ⟨some "server1", some "10.0.0.2"⟩⟩]).1 = true ∧
      countAddHost
        (parseServers ⟨none, none, false⟩
          [⟨"1", "servers", ⟨some "web-prod-01", some "10.0.0.1"⟩⟩,
           ⟨"2", "servers", ⟨some "server1", some "10.0.0.2"⟩⟩]).1 = 2 := by
  have h := parse_trace_invariants ⟨none, none, false⟩
    [⟨"1", "servers", ⟨some "web-prod-01", some "10.0.0.1"⟩⟩,
     ⟨"2", "servers", ⟨some "server1", some "10.0.0.2"⟩⟩]
  exact ⟨h.1, h.2 (by decide)⟩

/-- Parsing a concatenation of record lists, when the first part succeeds,
concatenates the traces and keeps the second part's outcome. -/
theorem parseServers_append (cfg : Config) (l1 l2 : List Server)
    (h : (parseServers cfg l1).2 = none) :
    parseServers cfg (l1 ++ l2) =
      ((parseServers cfg l1).1 ++ (parseServers cfg l2).1,
        (parseServers cfg l2).2) := by
  induction l1 with
  | nil => simp [parseServers]
  | cons s rest ih =>
    simp only [parseServers, List.cons_append] at h ⊢
    cases hr : (add_sever cfg s).2 with
    | some e => rw [hr] at h; exact Option.noConfusion h
    | none =>
      have h2 : (parseServers cfg rest).2 = none := by rw [hr] at h; exact h
      show ((add_sever cfg s).1 ++ (parseServers cfg (rest ++ l2)).1,
            (parseServers cfg (rest ++ l2)).2) =
          (((add_sever cfg s).1 ++ (parseServers cfg rest).1) ++
              (parseServers cfg l2).1,
            (parseServers cfg l2).2)
      rw [ih h2]
      simp [List.append_assoc]

/-- C4: a record without a `hostname` attribute aborts the whole parse with a
`KeyError`; the resulting trace is exactly the trace of the records before
it, so no host from any later record is registered. -/
theorem missing_hostname_aborts (cfg : Config) (pre post : List Server)
    (bad : Server) (hbad : bad.attributes.hostname = none)
    (hpre : (parseServers cfg pre).2 = none) :
    parseServers cfg (pre ++ bad :: post) =
      ((parseServers cfg pre).1, some (.keyError "hostname")) ∧
      ∀ h g, Event.addHost h g ∈ (parseServers cfg (pre ++ bad :: post)).1 →
        Event.addHost h g ∈ (parseServers cfg pre).1 := by
  have hmid : parseServers cfg (bad :: post) = ([], some (.keyError "hostname")) := by
    simp only [parseServers, add_sever, hbad]
  have htot : parseServers cfg (pre ++ bad :: post) =
      ((parseServers cfg pre).1, some (.keyError "hostname")) := by
    rw [parseServers_append cfg pre (bad :: post) hpre, hmid]
    simp
  exact ⟨htot, fun h g hm => by rw [htot] at hm; exact hm⟩

/-- Witness for C4: a good record, then a record without `hostname`, then
another good record; the trace is the first record's trace alone. -/
theorem missing_hostname_aborts_witness :
    parseServers ⟨none, none, false⟩
        [⟨"1", "servers", ⟨some "web-prod-01", some "10.0.0.1"⟩⟩,
         ⟨"2", "servers", ⟨none, some "10.0.0.2"⟩⟩,
         ⟨"3", "servers", ⟨some "db-staging-1", some "10.0.0.3"⟩⟩] =
      ((parseServers ⟨none, none, false⟩
          [⟨"1", "servers", ⟨some "web-prod-01", some "10.0.0.1"⟩⟩]).1,
        some (.keyError "hostname")) :=
  (missing_hostname_aborts ⟨none, none, false⟩
    [⟨"1", "servers", ⟨some "web-prod-01", some "10.0.0.1"⟩⟩]
    [⟨"3", "servers", ⟨some "db-staging-1", some "10.0.0.3"⟩⟩]
    ⟨"2", "servers", ⟨none, some "10.0.0.2"⟩⟩ rfl (by decide)).1

/-- One unrolling of the pagination loop on a successful non-empty page:
recurse on the next page with the records appended, counting one more
request. -/
theorem get_servers_loop_step (api : Nat → Response) (fuel page : Nat)
    (acc : List Server) (hok : (api page).ok = true)
    (hne : (api page).data ≠ []) :
    get_servers_loop api (fuel + 1) page acc =
      ((get_servers_loop api fuel (page + 1) (acc ++ (api page).data)).1,
        (get_servers_loop api fuel (page + 1) (acc ++ (api page).data)).2 + 1) := by
  have hemp : (api page).data.isEmpty = false := by
    cases hd : (api page).data with
    | nil => exact absurd hd hne
    | cons a t => rfl
  simp [get_servers_loop, hok, hemp]

/-- One unrolling of the pagination loop on a successful empty page: the loop
terminates with the accumulator after this single request. -/
theorem get_servers_loop_stop (api : Nat → Response) (fuel page : Nat)
    (acc : List Server) (hok : (api page).ok = true)
    (hemp : (api page).data = []) :
    get_servers_loop api (fuel + 1) page acc = (.ok acc, 1) := by
  simp [get_servers_loop, hok, hemp]

/-- One unrolling of the pagination loop on a non-success response:
`raise_for_status` raises after this single request. -/
theorem get_servers_loop_raise (api : Nat → Response) (fuel page : Nat)
    (acc : List Server) (hok : (api page).ok = false) :
    get_servers_loop api (fuel + 1) page acc = (.error .httpError, 1) := by
  simp [get_servers_loop, hok]

/-- Running the pagination loop against a response function that serves the
non-empty pages of `pages` at offsets `0`, `1`, ... from the start page,
followed by an empty page, appends their concatenation to the accumulator and
issues one request per page plus one for the terminating empty page. -/
theorem get_servers_loop_pages (api : Nat → Response) :
    ∀ (pages : List (List Server)) (page : Nat) (acc : List Server) (fuel : Nat),
      (∀ p ∈ pages, p ≠ []) →
      (∀ i, i ≤ pages.length → api (page + i) = ⟨true, (pages.get? i).getD []⟩) →
      pages.length < fuel →
      get_servers_loop api fuel page acc =
        (.ok (acc ++ pages.flatten), pages.length + 1) := by
  intro pages
  induction pages with
  | nil =>
    intro page acc fuel _ hapi hfuel
    cases fuel with
    | zero => omega
    | succ f =>
      have h0 : api page = ⟨true, []⟩ := by simpa using hapi 0 (by simp)
      rw [get_servers_loop_stop api f page acc (by rw [h0]) (by rw [h0])]
      simp
  | cons p ps ih =>
    intro page acc fuel hne hapi hfuel
    cases fuel with
    | zero => omega
    | succ f =>
      have h0 : api page = ⟨true, p⟩ := by simpa using hapi 0 (by simp)
      have hpne : p ≠ [] := hne p (List.mem_cons_self p ps)
      have hrec := ih (page + 1) (acc ++ p) f
        (fun q hq => hne q (List.mem_cons_of_mem p hq))
        (fun i hi => by
          have hstep := hapi (i + 1) (by simpa using Nat.succ_le_succ hi)
          rw [show page + (i + 1) = page + 1 + i by omega] at hstep
          simpa using hstep)
        (by simp only [List.length_cons] at hfuel; omega)
      rw [get_servers_loop_step api f page acc (by rw [h0]) (by rw [h0]; exact hpne)]
      rw [show acc ++ (api page).data = acc ++ p by rw [h0]]
      rw [hrec]
      simp

/-- Against a response function whose pages are all successful and non-empty,
the pagination loop never returns a result: it terminates only on an empty
page (with bounded fuel here; in Python it would loop forever). -/
theorem get_servers_loop_never_ok (api : Nat → Response)
    (hall : ∀ k, (api k).ok = true ∧ (api k).data ≠ []) :
    ∀ (fuel page : Nat) (acc l : List Server),
      (get_servers_loop api fuel page acc).1 ≠ Except.ok l := by
  intro fuel
  induction fuel with
  | zero => intro page acc l h; exact Except.noConfusion h
  | succ f ih =>
    intro page acc l
    rw [get_servers_loop_step api f page acc (hall page).1 (hall page).2]
    exact ih (page + 1) (acc ++ (api page).data) l

/-- When the first `j` responses from the start page are successful and
non-empty and response `j` is a non-success status, the loop fails with an
`HTTPError` after exactly `j + 1` requests: the failing request is the last
one issued, with no retry. -/
theorem get_servers_loop_http_error (api : Nat → Response) :
    ∀ (j page : Nat) (acc : List Server) (fuel : Nat),
      (∀ i, i < j → (api (page + i)).ok = true ∧ (api (page + i)).data ≠ []) →
      (api (page + j)).ok = false →
      j < fuel →
      get_servers_loop api fuel page acc = (.error .httpError, j + 1) := by
  intro j
  induction j with
  | zero =>
    intro page acc fuel _ hbad hfuel
    cases fuel with
    | zero => omega
    | succ f =>
      exact get_servers_loop_raise api f page acc (by simpa using hbad)
  | succ n ih =>
    intro page acc fuel hgood hbad hfuel
    cases fuel with
    | zero => omega
    | succ f =>
      have h0 := hgood 0 (Nat.succ_pos n)
      rw [get_servers_loop_step api f page acc (by simpa using h0.1) (by simpa using h0.2)]
      rw [ih (page + 1) (acc ++ (api page).data) f
        (fun i hi => by
          have hstep := hgood (i + 1) (Nat.succ_lt_succ hi)
          rw [show page + (i + 1) = page + 1 + i by omega] at hstep
          exact hstep)
        (by rw [show page + 1 + n = page + (n + 1) by omega]; exact hbad)
        (by omega)]

/-- C2: against an API that serves the non-empty pages of `pages` starting at
page number 1 followed by an empty page, `get_servers` returns the
concatenation of the pages in order and issues exactly `pages.length + 1` GET
requests, the cursor starting at 1 and incrementing by 1; and against any API
whose responses are never empty, the loop never returns a result — it
terminates only upon an empty data page. -/
theorem fetcher_collects_all_pages (api : Nat → Response)
    (pages : List (List Server)) (fuel : Nat)
    (hne : ∀ p ∈ pages, p ≠ [])
    (hapi : ∀ i, i ≤ pages.length → api (1 + i) = ⟨true, (pages.get? i).getD []⟩)
    (hfuel : pages.length < fuel) :
    get_servers api fuel = (.ok pages.flatten, pages.length + 1) ∧
      ∀ api2 : Nat → Response,
        (∀ k, (api2 k).ok = true ∧ (api2 k).data ≠ []) →
        ∀ (fuel2 page2 : Nat) (acc l : List Server),
          (get_servers_loop api2 fuel2 page2 acc).1 ≠ Except.ok l := by
  constructor
  · have h := get_servers_loop_pages api pages 1 [] fuel hne hapi hfuel
    simpa [get_servers] using h
  · intro api2 hall fuel2 page2 acc l
    exact get_servers_loop_never_ok api2 hall fuel2 page2 acc l

/-- Response function for the C2 witness: one record on page 1, one record on
page 2, an empty page afterwards. -/
def demo_api : Nat → Response := fun k =>
  if k = 1 then ⟨true, [⟨"1", "servers", ⟨some "web-prod-01", some "10.0.0.1"⟩⟩]⟩
  else if k = 2 then ⟨true, [⟨"2", "servers", ⟨some "db-staging-1", some "10.0.0.2"⟩⟩]⟩
  else ⟨true, []⟩

/-- Witness for C2: two non-empty pages then an empty page give both records
in order with three requests. -/
theorem fetcher_collects_all_pages_witness :
    get_servers demo_api 3 =
      (.ok [⟨"1", "servers", ⟨some "web-prod-01", some "10.0.0.1"⟩⟩,
            ⟨"2", "servers", ⟨some "db-staging-1", some "10.0.0.2"⟩⟩], 3) := by
  have h := fetcher_collects_all_pages demo_api
    [[⟨"1", "servers", ⟨some "web-prod-01", some "10.0.0.1"⟩⟩],
     [⟨"2", "servers", ⟨some "db-staging-1", some "10.0.0.2"⟩⟩]] 3
    (by decide) (by decide) (by decide)
  simpa using h.1

/-- C7: when the first `j` page requests succeed with non-empty pages and
the next request returns a non-success status, the fetcher fails right there
with an `HTTPError`, having issued exactly `j + 1` requests (no retry), and
the whole parse yields no inventory events at all — the records accumulated
from the earlier pages are never registered as hosts. -/
theorem http_error_aborts_parse (cfg : Config) (api : Nat → Response)
    (fuel j : Nat)
    (hgood : ∀ i, i < j → (api (1 + i)).ok = true ∧ (api (1 + i)).data ≠ [])
    (hbad : (api (1 + j)).ok = false)
    (hfuel : j < fuel) :
    get_servers api fuel = (.error .httpError, j + 1) ∧
      parse cfg api fuel = ([], some .httpError) := by
  have h := get_servers_loop_http_error api j 1 [] fuel hgood hbad hfuel
  have hg : get_servers api fuel = (.error .httpError, j + 1) := by
    simpa [get_servers] using h
  refine ⟨hg, ?_⟩
  simp only [parse, hg]

/-- Response function for the C7 witness: a good page 1, then a non-success
status on page 2. -/
def demo_api_err : Nat → Response := fun k =>
  if k = 1 then ⟨true, [⟨"1", "servers", ⟨some "web-prod-01", some "10.0.0.1"⟩⟩]⟩
  else ⟨false, []⟩

/-- Witness for C7: the failure on page 2 yields two requests, an
`HTTPError`, and an empty event trace. -/
theorem http_error_aborts_parse_witness :
    get_servers demo_api_err 3 = (.error .httpError, 2) ∧
      parse ⟨none, none, false⟩ demo_api_err 3 = ([], some .httpError) :=
  http_error_aborts_parse ⟨none, none, false⟩ demo_api_err 3 1
    (by decide) (by decide) (by decide)
